import Mathlib

/-!
Verification development for the Gratheon graphql-router.

The definitions below are shallow embeddings of the router's source files:

* `src/src/graphql-router.ts` — auth context function, scope gate
  (`isRequestAllowed`), the `/graphql` middleware;
* the legacy `handleGraphqlRequest` (scope-enforcement block) from the
  untyped entry point;
* `src/src/poll-schema-registry.ts` — `getServiceListWithTypeDefs`;
* `src/src/supergraph.ts` — `CustomSupergraphManager` (`buildSupergraph`,
  `compose`, `initialize`, `poll`, cleanup);
* the subgraph dispatcher `RemoteGraphQLDataSource.process`
  (TypeScript standalone version and the legacy `remote-data-source.js`).

External collaborators (the GraphQL parser, the federation composition
engine, the identity service, JWT verification, the registry HTTP call)
are modelled as explicit parameters or outcome values, so that every
embedded function is a total, executable Lean function.
-/

namespace Router

/-! ## GraphQL document model

Only the shape inspected by the router is modelled: a document is a list
of definitions; an operation definition has an operation kind and a list
of top-level selections, each either a field (with its name) or some
other selection (fragment spread / inline fragment). -/

inductive OperationType
  | query
  | mutation
  | subscription
deriving DecidableEq, Repr

inductive Selection
  | field (name : String)
  | otherSelection
deriving DecidableEq, Repr

structure OperationDefinition where
  operation : OperationType
  selections : List Selection
deriving DecidableEq, Repr

/-- One definition of a GraphQL document: an executable operation or any
other kind of definition (fragment definitions, type-system definitions). -/
inductive Definition
  | op (d : OperationDefinition)
  | otherDefinition
deriving DecidableEq, Repr

/-- A parsed GraphQL document (graphql-js `DocumentNode`), reduced to the
structure the router inspects. -/
abbrev DocumentNode := List Definition

/-! ## JavaScript values for variables and required scope arguments

Scope matching (`isRequestAllowed`) compares `variables[argName]` against
the required value with the JavaScript strict (in)equality `!==`.  Values
arriving there come from two separately JSON-parsed texts (the request
body and the share-token scopes), so two object values are always distinct
references: `!==` on two objects is `true`.  JSON numbers are modelled as
integers (the claims do not exercise fractional values). -/

inductive JSValue
  | str (s : String)
  | num (n : Int)
  | boolean (b : Bool)
  | null
  | undefined
  | obj
deriving DecidableEq, Repr

/-- JavaScript strict equality `===` restricted to the values above; two
(separately parsed) objects are never `===`. -/
def jsStrictEq : JSValue → JSValue → Bool
  | JSValue.str a, JSValue.str b => a == b
  | JSValue.num a, JSValue.num b => a == b
  | JSValue.boolean a, JSValue.boolean b => a == b
  | JSValue.null, JSValue.null => true
  | JSValue.undefined, JSValue.undefined => true
  | _, _ => false

/-- Request variables: a total map; a missing key reads as `undefined`
(JavaScript property access on an object). -/
abbrev Variables := String → JSValue

/-- ScopeEntry of the share-token scope set
(`interface AllowedQuery` in src/src/graphql-router.ts): `requiredArgs`
is optional; `none` models an absent (falsy) property. -/
structure AllowedQuery where
  queryName : String
  requiredArgs : Option (List (String × JSValue))
deriving DecidableEq, Repr

/-- ScopeSet (`interface Scopes` in src/src/graphql-router.ts). -/
structure Scopes where
  allowedQueries : List AllowedQuery
deriving DecidableEq, Repr

/-! ## Scope gate -/

/-- Operation-name extraction of `isRequestAllowed`
(src/src/graphql-router.ts:131-138): `visit` runs the
`OperationDefinition` callback on every operation definition in document
order; the callback overwrites `operationName` whenever the definition is
a `query` whose first top-level selection is a `Field`.  The surviving
value is therefore the one from the LAST such operation definition. -/
def visitOperationName (doc : DocumentNode) : Option String :=
  doc.foldl
    (fun acc d =>
      match d with
      | Definition.op o =>
        match o.operation, o.selections.head? with
        | OperationType.query, some (Selection.field n) => some n
        | _, _ => acc
      | Definition.otherDefinition => acc)
    none

/-- Required-argument check of one scope entry
(src/src/graphql-router.ts:143-149): every `(argName, requiredValue)`
pair must satisfy `variables[argName] === requiredValue`; an absent
`requiredArgs` property imposes nothing. -/
def reqArgsOk (vars : Variables) : Option (List (String × JSValue)) → Bool
  | none => true
  | some args => args.all (fun p => jsStrictEq (vars p.1) p.2)

/-- Embedding of `isRequestAllowed(queryAst, variables, scopes)`
(src/src/graphql-router.ts:127-155): deny when no operation name is
found; otherwise allow iff some entry of `scopes.allowedQueries` matches
by `queryName` and by required arguments. -/
def isRequestAllowed (queryAst : DocumentNode) (vars : Variables)
    (scopes : Scopes) : Bool :=
  match visitOperationName queryAst with
  | none => false
  | some operationName =>
    scopes.allowedQueries.any
      (fun aq => aq.queryName == operationName && reqArgsOk vars aq.requiredArgs)

/-- Modelled from the spec: operation field name per the spec's words
(§4.5 step 1 / claim C7): "the name of the first top-level selection
field of the FIRST OperationDefinition of kind query", denial when no
such name exists.  Kept only to compare with `visitOperationName`. -/
def specOpFieldName (doc : DocumentNode) : Option String :=
  match doc.find?
      (fun d =>
        match d with
        | Definition.op o => o.operation == OperationType.query
        | Definition.otherDefinition => false) with
  | some (Definition.op o) =>
    match o.selections.head? with
    | some (Selection.field n) => some n
    | _ => none
  | _ => none

/-- Modelled from the spec: the allow decision with the spec's
first-operation field name, for comparison with `isRequestAllowed`. -/
def specIsRequestAllowed (doc : DocumentNode) (vars : Variables)
    (scopes : Scopes) : Bool :=
  match specOpFieldName doc with
  | none => false
  | some operationName =>
    scopes.allowedQueries.any
      (fun aq => aq.queryName == operationName && reqArgsOk vars aq.requiredArgs)

/-! ## Authentication pipeline (contextFunction, src/src/graphql-router.ts:74-119)

Credentials are modelled as `Option String` where `some` means the header
or cookie is present AND truthy (an empty header string is falsy in
JavaScript and behaves like an absent one).  The identity service and the
JWT library are external collaborators; their outcomes are inputs. -/

/-- Error kinds raised inside contextFunction and caught into
`contextData.authError` (each corresponds to one `GraphQLError` literal
in the source). -/
inductive AuthError
  | invalidApiKey
  | invalidOrExpiredAuthToken
  | shareValidationTransportFailed
  | invalidShareToken
deriving DecidableEq, Repr

/-- Reply of the `ValidateApiToken` mutation
(`type ValidateApiTokenResponse` in the source). -/
inductive ValidateApiTokenResponse
  | tokenUser (id : String)
  | errorResponse (code : String)
deriving DecidableEq, Repr

/-- Reply of the `ValidateShareToken` query
(`type ValidateShareTokenResponse` in the source). -/
inductive ValidateShareTokenResponse
  | shareTokenDetails (id name : String) (scopes : Scopes) (userId : String)
  | errorResponse (code : String)
deriving DecidableEq, Repr

/-- The per-request `MyContext` built by contextFunction. -/
structure MyContext where
  userId : Option String := none
  shareScopes : Option Scopes := none
  authError : Option AuthError := none
deriving DecidableEq, Repr

/-- Credentials carried by one request (presence = present and truthy). -/
structure AuthRequest where
  bearer : Option String := none
  cookieToken : Option String := none
  headerToken : Option String := none
  shareToken : Option String := none
deriving DecidableEq, Repr

/-- Outcomes of the external collaborators consulted by contextFunction:
the decoded `data.validateApiToken` field (absent when the envelope is
malformed), the JWT verification (error, or decoded payload's optional
`user_id`), the share-token HTTP status (`response.ok`) and its decoded
`data.validateShareToken` field. -/
structure AuthEnv where
  apiTokenResp : Option ValidateApiTokenResponse
  jwtVerify : String → Except Unit (Option String)
  shareRespOk : Bool
  shareResp : Option ValidateShareTokenResponse

/-- One external validation path taken by contextFunction. -/
inductive AuthStep
  | bearerValidation
  | jwtValidation
  | shareValidation
deriving DecidableEq, Repr

/-- The session token choice `cookieToken || headerToken` (evaluated only
when at least one of the two is present). -/
def sessionToken (c h : Option String) : String :=
  match c with
  | some t => t
  | none => h.getD ""

/-- Embedding of `contextFunction` (src/src/graphql-router.ts:74-119):
the strict `if bearer / else if cookie||header / else if shareToken`
chain, every thrown `GraphQLError` caught into `contextData.authError`.
Besides the context it returns the list of external validation paths
taken.  In the JWT branch both failure modes (verification error, and a
decoded payload without `user_id`) surface as the same rethrown
"invalid or expired" error, because the `else throw` sits inside the
inner `try` whose `catch` rethrows. -/
def contextFunction (req : AuthRequest) (env : AuthEnv) :
    MyContext × List AuthStep :=
  match req.bearer with
  | some _ =>
    (match env.apiTokenResp with
     | some (ValidateApiTokenResponse.tokenUser id) =>
       ({ userId := some id }, [AuthStep.bearerValidation])
     | _ =>
       ({ authError := some AuthError.invalidApiKey }, [AuthStep.bearerValidation]))
  | none =>
    if req.cookieToken.isSome || req.headerToken.isSome then
      match env.jwtVerify (sessionToken req.cookieToken req.headerToken) with
      | Except.ok (some uid) => ({ userId := some uid }, [AuthStep.jwtValidation])
      | Except.ok none =>
        ({ authError := some AuthError.invalidOrExpiredAuthToken }, [AuthStep.jwtValidation])
      | Except.error _ =>
        ({ authError := some AuthError.invalidOrExpiredAuthToken }, [AuthStep.jwtValidation])
    else
      match req.shareToken with
      | some _ =>
        if !env.shareRespOk then
          ({ authError := some AuthError.shareValidationTransportFailed },
           [AuthStep.shareValidation])
        else
          (match env.shareResp with
           | some (ValidateShareTokenResponse.shareTokenDetails _ _ scopes uid) =>
             ({ userId := some uid, shareScopes := some scopes },
              [AuthStep.shareValidation])
           | _ =>
             ({ authError := some AuthError.invalidShareToken },
              [AuthStep.shareValidation]))
      | none => ({}, [])

/-- Truthiness of the decoded `validateApiToken` reply: true exactly when
the reply discriminator is `TokenUser`. -/
def isTokenUser : Option ValidateApiTokenResponse → Bool
  | some (ValidateApiTokenResponse.tokenUser _) => true
  | _ => false

/-- Success of the JWT verification: true exactly when verification
succeeded and the decoded payload carries a `user_id` (the only outcome
of the session branch that does not throw). -/
def jwtOkUser : Except Unit (Option String) → Bool
  | Except.ok (some _) => true
  | _ => false

/-! ## Request admission: scope-enforcement gate vs the TS middleware -/

/-- Outcome of the router's own pre-execution handling of a POST /graphql
request: either an early HTTP response (status and GraphQL error
messages) or dispatch into Apollo execution (query planning and subgraph
sub-requests) with the given context. -/
inductive RouterOutcome
  | earlyResponse (status : Nat) (messages : List String)
  | dispatched (ctx : MyContext)
deriving DecidableEq, Repr

/-- Embedding of the scope-enforcement block of the legacy
`handleGraphqlRequest` (untyped entry point, lines 662-691): when the
context carries `shareScopes` and `isRequestAllowed` denies, respond 403
with the single error message and stop; otherwise proceed to
`runHttpQuery` (execution and subgraph dispatch). -/
def handleGraphqlRequestGate (ctx : MyContext) (queryAst : DocumentNode)
    (vars : Variables) : RouterOutcome :=
  match ctx.shareScopes with
  | some scopes =>
    if isRequestAllowed queryAst vars scopes then RouterOutcome.dispatched ctx
    else
      RouterOutcome.earlyResponse 403
        ["Forbidden: Operation not allowed by share token scope."]
  | none => RouterOutcome.dispatched ctx

/-- Embedding of the `/graphql` middleware installed by `startServer`
(src/src/graphql-router.ts:201-210): its body only logs
"Skipping middleware scope check" and calls `next()`, so every request —
whatever its context and operation — proceeds to Apollo execution.
`isRequestAllowed` has no call site in the TypeScript entry point. -/
def tsGraphqlMiddleware (ctx : MyContext) (_queryAst : DocumentNode)
    (_vars : Variables) : RouterOutcome :=
  RouterOutcome.dispatched ctx

/-! ## Subgraph dispatcher headers -/

/-- Value of an outbound subgraph header: literal text, or the
`JSON.stringify` serialization of the share-scope object (the
serialization itself is an external library call). -/
inductive HeaderValue
  | text (s : String)
  | jsonScopes (s : Scopes)
deriving DecidableEq, Repr

/-- Headers.set: replace-or-append.  (Fetch header names are
case-insensitive; the names set by the dispatcher are pairwise distinct
under any casing, so plain name equality is faithful here.) -/
def headerSet (hs : List (String × HeaderValue)) (name : String)
    (v : HeaderValue) : List (String × HeaderValue) :=
  if hs.any (fun p => p.1 == name) then
    hs.map (fun p => if p.1 == name then (p.1, v) else p)
  else hs ++ [(name, v)]

/-- Header construction of the standalone TypeScript
`RemoteGraphQLDataSource.process` (lines 38-57 of the .ts source): a
FRESH `Headers()` object (no inbound header is copied), `Content-Type`
and `internal-router-signature` always set, `internal-userId` set iff the
effective context's `userId` is truthy (non-empty).  Share-scope
forwarding is absent from this version — the source carries only the
comment "ShareScopes forwarding (removed for brevity in example, add
back if needed)". -/
def processHeadersTs (ctx : MyContext) : List (String × HeaderValue) :=
  let h := headerSet [] "Content-Type" (HeaderValue.text "application/json")
  let h := headerSet h "internal-router-signature" (HeaderValue.text "a239vmwoeifworg")
  match ctx.userId with
  | some uid => if uid = "" then h else headerSet h "internal-userId" (HeaderValue.text uid)
  | none => h

/-- Header construction of the legacy `remote-data-source.js` `process`
(lines 12-56): starts from `request.http.headers` when present (else a
fresh `Headers()`), sets `Content-Type`, the signature, `internal-userId`
when `context.userId` is truthy, and `X-Share-Scopes` to
`JSON.stringify(context.shareScopes)` when `shareScopes` is truthy (it is
always an object when present, so stringification succeeds). -/
def processHeadersJs (inbound : List (String × HeaderValue)) (ctx : MyContext) :
    List (String × HeaderValue) :=
  let h := headerSet inbound "Content-Type" (HeaderValue.text "application/json")
  let h := headerSet h "internal-router-signature" (HeaderValue.text "a239vmwoeifworg")
  let h := match ctx.userId with
    | some uid => if uid = "" then h else headerSet h "internal-userId" (HeaderValue.text uid)
    | none => h
  match ctx.shareScopes with
  | some s => headerSet h "X-Share-Scopes" (HeaderValue.jsonScopes s)
  | none => h

/-! ## Registry client (src/src/poll-schema-registry.ts) -/

/-- One entry of the registry envelope `data` array
(`interface RawSchemaDefinition`); `url = none` models an absent or empty
(falsy) url. -/
structure RawSchemaDefinition where
  name : String
  url : Option String
  version : String
  type_defs : String
  type_defs_original : String := ""
deriving DecidableEq, Repr

/-- Service definition handed to composition after filtering
(`ServiceDefinition` from @apollo/gateway, restricted to the fields the
router uses). -/
structure ServiceDefinition where
  name : String
  url : String
  typeDefs : DocumentNode
deriving DecidableEq, Repr

/-- The `serviceSdlCache`: service name → last-seen `type_defs` text. -/
abbrev Cache := String → Option String

def emptyCache : Cache := fun _ => none

/-- Map.set on the cache. -/
def cacheInsert (c : Cache) (name v : String) : Cache :=
  fun m => if m = name then some v else c m

/-- The URL rewrite of the registry client: `schema.url` truthy →
`http://` prefix, else undefined (filtered downstream). -/
def urlRewrite : Option String → Option String
  | some u => if u = "" then none else some ("http://" ++ u)
  | none => none

/-- Intermediate per-entry result of the `rawSchemas.map` callback
(`type MappedService`) before the url/typeDefs filter. -/
structure MappedService where
  name : String
  url : Option String
  typeDefs : Option DocumentNode
deriving DecidableEq, Repr

/-- The body of the `rawSchemas.map` callback applied to one entry, minus
the cache side effect: url rewrite and `parse(schema.type_defs)` (the
GraphQL parser is the external `parse`; `none` models a parse throw). -/
def mkMapped (parse : String → Option DocumentNode)
    (s : RawSchemaDefinition) : MappedService :=
  { name := s.name, url := urlRewrite s.url, typeDefs := parse s.type_defs }

/-- The `rawSchemas.map` loop with its cache side effects, in document
order: for each entry, compare `type_defs` with the CURRENT cache value
under its name (OR-ing into `schemaChanged`), then `cache.set`.  Returns
the final cache, the `schemaChanged` flag and the mapped list. -/
def mapRegistry (parse : String → Option DocumentNode) :
    Cache → List RawSchemaDefinition → Cache × Bool × List MappedService
  | cache, [] => (cache, false, [])
  | cache, s :: rest =>
    let changedHere : Bool := decide (cache s.name ≠ some s.type_defs)
    let next := mapRegistry parse (cacheInsert cache s.name s.type_defs) rest
    (next.1, changedHere || next.2.1, mkMapped parse s :: next.2.2)

/-- The filter closing `getServiceListWithTypeDefs`: keep only mapped
services with both a url and parsed typeDefs. -/
def toService (m : MappedService) : Option ServiceDefinition :=
  match m.url, m.typeDefs with
  | some u, some td => some { name := m.name, url := u, typeDefs := td }
  | _, _ => none

/-- Result record of `getServiceListWithTypeDefs`
(`interface ServiceListResult`): it carries exactly `services` and
`schemaChanged` — no error flag exists in the source. -/
structure ServiceListResult where
  services : List ServiceDefinition
  schemaChanged : Bool
deriving DecidableEq, Repr

/-- Embedding of `getServiceListWithTypeDefs(serviceSdlCache)`
(src/src/poll-schema-registry.ts:31-111).  The registry HTTP call is an
input: `Except.error ()` models a network/decode failure (the `catch`
branch logs and returns `(services := [], schemaChanged := false)` with
the cache untouched); `Except.ok raw` models a decoded envelope whose
`data` array is `raw` (a missing `data` field is the empty array, per
`?? []`).  The second component is the cache after the call
(`this.serviceSdlCache` is mutated in place). -/
def getServiceListWithTypeDefs (parse : String → Option DocumentNode)
    (registry : Except Unit (List RawSchemaDefinition)) (cache : Cache) :
    ServiceListResult × Cache :=
  match registry with
  | Except.error _ => ({ services := [], schemaChanged := false }, cache)
  | Except.ok raw =>
    let m := mapRegistry parse cache raw
    ({ services := m.2.2.filterMap toService, schemaChanged := m.2.1 }, m.1)

/-! ## Composer and buildSupergraph (src/src/supergraph.ts) -/

/-- Result of the external `composeServices` engine
(`CompositionResult`): diagnostic messages and an optional SDL. -/
structure CompositionResult where
  errors : List String
  supergraphSdl : Option String
deriving DecidableEq, Repr

/-- The composition engine is an external collaborator; it is a
deterministic function of the service list. -/
abbrev ComposeEngine := List ServiceDefinition → CompositionResult

/-- Embedding of `compose(services)` (src/src/supergraph.ts:166-184):
throw when the engine reports errors (message: the concatenated
diagnostics) or when it reports success with a falsy SDL (absent or
empty string); otherwise return the SDL. -/
def compose (engine : ComposeEngine) (services : List ServiceDefinition) :
    Except String String :=
  let composed := engine services
  if composed.errors ≠ [] then
    Except.error ("Supergraph composition failed:\n"
      ++ String.intercalate "\n" (composed.errors.map (fun m => "\t" ++ m)))
  else
    match composed.supergraphSdl with
    | some sdl =>
      if sdl = "" then Except.error "Supergraph composition failed: No SDL generated."
      else Except.ok sdl
    | none => Except.error "Supergraph composition failed: No SDL generated."

/-- The constant default service substituted when the registry returns no
services (`defaultService` in src/src/supergraph.ts; its typeDefs are the
parse of a one-field Query type, a type-system definition). -/
def defaultService : ServiceDefinition :=
  { name := "default"
    url := "http://localhost:8080/graphql"
    typeDefs := [Definition.otherDefinition] }

/-- Return record of `buildSupergraph`. -/
structure BuildSupergraphResult where
  supergraphSdl : String
  schemaChanged : Bool
deriving DecidableEq, Repr

/-- Embedding of `CustomSupergraphManager.buildSupergraph`
(src/src/supergraph.ts:90-111): fetch the service list; if it is empty,
substitute `[defaultService]` and force `schemaChanged := true`; the
`validServices` filter (`s => s.typeDefs`) keeps every service, since the
registry client already filtered out services without typeDefs and the
default service has them, so the "no valid services" throw is kept but
unreachable; finally compose, propagating any composition failure as the
`Except.error`.  The second component is the cache after the registry
call (mutated even when composition fails). -/
def buildSupergraph (parse : String → Option DocumentNode)
    (engine : ComposeEngine) (registry : Except Unit (List RawSchemaDefinition))
    (cache : Cache) : Except String BuildSupergraphResult × Cache :=
  let r := getServiceListWithTypeDefs parse registry cache
  let sc : List ServiceDefinition × Bool :=
    if r.1.services.isEmpty then ([defaultService], true)
    else (r.1.services, r.1.schemaChanged)
  let validServices := sc.1
  if validServices.isEmpty then
    (Except.error "Cannot build supergraph: No valid service definitions found.", r.2)
  else
    ((compose engine validServices).map
       (fun sdl => { supergraphSdl := sdl, schemaChanged := sc.2 }), r.2)

/-! ## Manager state machine (initialize / poll / cleanup) -/

/-- The manager phase (`type ManagerPhase` in src/src/supergraph.ts). -/
inductive ManagerPhase
  | initialized
  | polling
  | stopped
deriving DecidableEq, Repr

/-- Observable manager state: the phase, the `serviceSdlCache`, and the
list of SDL strings passed to the `update` callback so far (publish
history, in order). -/
structure ManagerState where
  phase : ManagerPhase
  cache : Cache
  published : List String

/-- State of a freshly constructed manager. -/
def managerStart : ManagerState :=
  { phase := ManagerPhase.initialized, cache := emptyCache, published := [] }

/-- Embedding of `beginPolling` (src/src/supergraph.ts:113-121): moves to
`polling` only from `initialized`. -/
def beginPolling (s : ManagerState) : ManagerState :=
  if s.phase = ManagerPhase.initialized then { s with phase := ManagerPhase.polling }
  else s

/-- Embedding of the `cleanup` closure returned by `initialize`
(src/src/supergraph.ts:78-86): sets the state to `Stopped`
unconditionally (and clears the timer). -/
def cleanup (s : ManagerState) : ManagerState :=
  { s with phase := ManagerPhase.stopped }

/-- JavaScript truthiness of `this.pollIntervalInMs`
(`if (this.pollIntervalInMs)`): absent or zero is falsy. -/
def intervalTruthy : Option Nat → Bool
  | some n => n ≠ 0
  | none => false

/-- Embedding of one timer callback of `poll`
(src/src/supergraph.ts:123-162): exit immediately unless the phase is
`polling`; otherwise run `buildSupergraph` (the cache side effect
persists even on failure), call `update(supergraphSdl)` exactly when the
build succeeded with `schemaChanged` true (the `update` callback is set
by `initialize`), and swallow build errors. -/
def pollTick (parse : String → Option DocumentNode) (engine : ComposeEngine)
    (registry : Except Unit (List RawSchemaDefinition)) (s : ManagerState) :
    ManagerState :=
  if s.phase = ManagerPhase.polling then
    match buildSupergraph parse engine registry s.cache with
    | (Except.ok r, cache2) =>
      { s with cache := cache2
               published := if r.schemaChanged then s.published ++ [r.supergraphSdl]
                            else s.published }
    | (Except.error _, cache2) => { s with cache := cache2 }
  else s

/-- Embedding of `initialize({ update })` (src/src/supergraph.ts:68-88):
run the first build synchronously; on failure the exception propagates
(the phase is untouched, the cache side effect persists); on success,
begin polling when the configured interval is truthy.  Returns the
initial SDL (or the propagated error) and the state after the call. -/
def initializeManager (parse : String → Option DocumentNode)
    (engine : ComposeEngine) (registry : Except Unit (List RawSchemaDefinition))
    (interval : Option Nat) (s : ManagerState) : Except String String × ManagerState :=
  match buildSupergraph parse engine registry s.cache with
  | (Except.error e, cache2) => (Except.error e, { s with cache := cache2 })
  | (Except.ok r, cache2) =>
    let s2 := { s with cache := cache2 }
    (Except.ok r.supergraphSdl, if intervalTruthy interval then beginPolling s2 else s2)

/-- External events driving the manager: the gateway's `initialize`
call, one poll-timer tick (each carrying that cycle's registry outcome),
and the gateway's cleanup call. -/
inductive MEvent
  | init (registry : Except Unit (List RawSchemaDefinition))
  | tick (registry : Except Unit (List RawSchemaDefinition))
  | cancelEvent

/-- One step of the manager under an external event. -/
def stepEvent (parse : String → Option DocumentNode) (engine : ComposeEngine)
    (interval : Option Nat) (s : ManagerState) : MEvent → ManagerState
  | MEvent.init r => (initializeManager parse engine r interval s).2
  | MEvent.tick r => pollTick parse engine r s
  | MEvent.cancelEvent => cleanup s

/-! ## Concrete fixtures (used by counterexamples and witnesses) -/

/-- Parse result of the SDL text "x" in the test parser. -/
def docX : DocumentNode := [Definition.otherDefinition]

/-- Parse result of the SDL text "y" in the test parser (distinct). -/
def docY : DocumentNode := [Definition.otherDefinition, Definition.otherDefinition]

/-- A concrete GraphQL parser: "x" and "y" parse, everything else throws. -/
def parseT : String → Option DocumentNode := fun s =>
  if s = "x" then some docX else if s = "y" then some docY else none

/-- A concrete deterministic composition engine: any service list holding
the "y" document fails composition with one diagnostic; the default
service alone composes to "DEFAULT_SDL"; anything else to "SDL1". -/
def engineT : ComposeEngine := fun svcs =>
  if svcs.any (fun s => decide (s.typeDefs = docY)) then
    { errors := ["conflict"], supergraphSdl := none }
  else if svcs = [defaultService] then
    { errors := [], supergraphSdl := some "DEFAULT_SDL" }
  else { errors := [], supergraphSdl := some "SDL1" }

/-- Registry entry: service A at version 1 with type_defs "x". -/
def rawAx : RawSchemaDefinition :=
  { name := "A", url := some "a.host", version := "1", type_defs := "x" }

/-- Registry entry: service A at version 2 with type_defs "y". -/
def rawAy : RawSchemaDefinition :=
  { name := "A", url := some "a.host", version := "2", type_defs := "y" }

/-- Registry entry: service B with an ABSENT url (it survives change
detection and caching but is filtered out of the service list). -/
def rawBnoUrl : RawSchemaDefinition :=
  { name := "B", url := none, version := "1", type_defs := "x" }

def regX : Except Unit (List RawSchemaDefinition) := Except.ok [rawAx]

def regY : Except Unit (List RawSchemaDefinition) := Except.ok [rawAy]

def regEmpty : Except Unit (List RawSchemaDefinition) := Except.ok []

/-- Cache after one successful build against `regX` (service A → "x"). -/
def cacheAfterX : Cache := (buildSupergraph parseT engineT regX emptyCache).2

/-- A polling manager with an empty cache and no publish yet. -/
def pollStateP : ManagerState :=
  { phase := ManagerPhase.polling, cache := emptyCache, published := [] }

/-- A polling manager right after the successful build against `regX`. -/
def pollStateAfterX : ManagerState :=
  { phase := ManagerPhase.polling, cache := cacheAfterX, published := [] }

/-- Cache remembering services A and B, both with type_defs "x". -/
def cacheAB : Cache := cacheInsert (cacheInsert emptyCache "A" "x") "B" "x"

/-- A polling manager whose cache remembers services A and B. -/
def pollStateAB : ManagerState :=
  { phase := ManagerPhase.polling, cache := cacheAB, published := [] }

/-- A polling manager whose cache remembers service A only. -/
def pollStateA : ManagerState :=
  { phase := ManagerPhase.polling, cache := cacheInsert emptyCache "A" "x"
    published := [] }

/-- Variables map of a request without variables. -/
def undefVars : Variables := fun _ => JSValue.undefined

/-- Spec scenario S3 operation document: a query selecting `hives`. -/
def s3Doc : DocumentNode :=
  [Definition.op { operation := OperationType.query
                   selections := [Selection.field "hives"] }]

/-- Spec scenario S3 scope set: only the `apiaries` query is allowed. -/
def s3Scopes : Scopes :=
  { allowedQueries := [{ queryName := "apiaries", requiredArgs := none }] }

/-- Share-token context of scenario S3. -/
def s3Ctx : MyContext := { userId := some "u1", shareScopes := some s3Scopes }

/-- Spec scenario S4 scope set: `hive` with required arg id = "42". -/
def s4Scopes : Scopes :=
  { allowedQueries :=
      [{ queryName := "hive", requiredArgs := some [("id", JSValue.str "42")] }] }

/-- Share-token context of scenario S4. -/
def s4Ctx : MyContext := { userId := some "u9", shareScopes := some s4Scopes }

/-- Document with TWO query operations: first selects field `a`, second
selects field `b`. -/
def docAB : DocumentNode :=
  [Definition.op { operation := OperationType.query
                   selections := [Selection.field "a"] },
   Definition.op { operation := OperationType.query
                   selections := [Selection.field "b"] }]

/-- Scope set allowing only the query name `b`. -/
def scopesB : Scopes :=
  { allowedQueries := [{ queryName := "b", requiredArgs := none }] }

/-- Request carrying both a bearer token and a share token. -/
def reqBearerShare : AuthRequest :=
  { bearer := some "t1", shareToken := some "s1" }

/-- Identity-service outcomes: bearer validates to TokenUser "u9"; the
JWT verifier rejects; the share endpoint would answer (it is never
consulted for `reqBearerShare`). -/
def envTokenUser : AuthEnv :=
  { apiTokenResp := some (ValidateApiTokenResponse.tokenUser "u9")
    jwtVerify := fun _ => Except.error ()
    shareRespOk := true
    shareResp := none }

/-- Request carrying a session cookie and a share token (no bearer). -/
def reqSessionShare : AuthRequest :=
  { cookieToken := some "c1", shareToken := some "s1" }

/-- Outcomes where the JWT verification throws while the share endpoint
would validate successfully (it is never consulted for
`reqSessionShare`: the failed session credential preempts it). -/
def envJwtFails : AuthEnv :=
  { apiTokenResp := none
    jwtVerify := fun _ => Except.error ()
    shareRespOk := true
    shareResp := some (ValidateShareTokenResponse.shareTokenDetails
      "i1" "n1" s3Scopes "u1") }

/-! ## Helper lemmas -/

/-- Inserting the value a cache already holds leaves the cache unchanged
(caches are extensional maps). -/
lemma cacheInsert_self (c : Cache) (n v : String) (h : c n = some v) :
    cacheInsert c n v = c := by
  funext m
  by_cases hm : m = n
  · simp [cacheInsert, hm, h]
  · simp [cacheInsert, hm]

/-- The `schemaChanged` flag of the registry map loop is true exactly
when some entry's `type_defs` differs from the PRE-CALL cache value under
its name (evolving-cache comparison and pre-cache comparison agree). -/
lemma mapRegistry_changed_iff (parse : String → Option DocumentNode)
    (l : List RawSchemaDefinition) (cache : Cache) :
    (mapRegistry parse cache l).2.1 = true ↔
      ∃ r ∈ l, cache r.name ≠ some r.type_defs := by
  induction l generalizing cache with
  | nil => simp [mapRegistry]
  | cons s rest ih =>
    by_cases hc : cache s.name = some s.type_defs
    · simp [mapRegistry, hc, cacheInsert_self _ _ _ hc, ih]
    · simp [mapRegistry, hc]

/-- Cache keys named by no registry entry are untouched by the map loop. -/
lemma mapRegistry_cache_other (parse : String → Option DocumentNode)
    (l : List RawSchemaDefinition) (cache : Cache) (n : String)
    (h : ∀ r ∈ l, r.name ≠ n) :
    (mapRegistry parse cache l).1 n = cache n := by
  induction l generalizing cache with
  | nil => rfl
  | cons s rest ih =>
    have h1 : s.name ≠ n := h s (List.mem_cons_self s rest)
    have h2 := ih (cacheInsert cache s.name s.type_defs)
      (fun r hr => h r (List.mem_cons_of_mem s hr))
    have hns : ¬ (n = s.name) := fun hn => h1 hn.symm
    calc (mapRegistry parse cache (s :: rest)).1 n
        = (mapRegistry parse (cacheInsert cache s.name s.type_defs) rest).1 n := rfl
      _ = cacheInsert cache s.name s.type_defs n := h2
      _ = cache n := by simp [cacheInsert, hns]

/-- The mapped service list is the plain map of the entry translation
(the cache side effects do not influence it). -/
lemma mapRegistry_mapped (parse : String → Option DocumentNode)
    (l : List RawSchemaDefinition) (cache : Cache) :
    (mapRegistry parse cache l).2.2 = l.map (mkMapped parse) := by
  induction l generalizing cache with
  | nil => rfl
  | cons s rest ih => simp [mapRegistry, ih]

/-- When the registry client returned a non-empty service list with no
change, buildSupergraph performs no substitution and reports the
composition of exactly that list with `schemaChanged = false`. -/
lemma buildSupergraph_no_substitution (parse : String → Option DocumentNode)
    (engine : ComposeEngine) (registry : Except Unit (List RawSchemaDefinition))
    (cache : Cache)
    (hne : (getServiceListWithTypeDefs parse registry cache).1.services ≠ [])
    (hch : (getServiceListWithTypeDefs parse registry cache).1.schemaChanged = false) :
    (buildSupergraph parse engine registry cache).1 =
      (compose engine (getServiceListWithTypeDefs parse registry cache).1.services).map
        (fun sdl => { supergraphSdl := sdl, schemaChanged := false }) := by
  have hE : (getServiceListWithTypeDefs parse registry cache).1.services.isEmpty = false := by
    simpa [List.isEmpty_iff] using hne
  simp [buildSupergraph, hE, hch]

/-! ## Claims -/

/-- Claim C1 (code_bug evidence).  At the spec's S3 input — share scopes
allowing only `apiaries`, operation selecting `hives` — the scope gate
denies (`isRequestAllowed` is false) and the legacy `handleGraphqlRequest`
responds 403 with the single forbidden message and no dispatch, but the
TypeScript entry point's `/graphql` middleware dispatches the request to
execution anyway: `isRequestAllowed` has no call site there, so no 403 is
produced and sub-requests are issued. -/
theorem c1_ts_router_skips_scope_gate :
    isRequestAllowed s3Doc undefVars s3Scopes = false ∧
    tsGraphqlMiddleware s3Ctx s3Doc undefVars = RouterOutcome.dispatched s3Ctx ∧
    handleGraphqlRequestGate s3Ctx s3Doc undefVars =
      RouterOutcome.earlyResponse 403
        ["Forbidden: Operation not allowed by share token scope."] :=
  ⟨rfl, rfl, rfl⟩

/-- Claim C2 (code_bug evidence).  For a context carrying both a userId
and shareScopes (spec scenario S4), the TypeScript dispatcher sends
exactly `Content-Type`, `internal-router-signature` and
`internal-userId` — no `X-Share-Scopes` header, although the claim
requires it whenever shareScopes is set (the legacy `remote-data-source.js`
did send it); no client `Authorization` header is carried. -/
theorem c2_ts_dispatcher_drops_share_scopes :
    (processHeadersTs s4Ctx).map Prod.fst =
      ["Content-Type", "internal-router-signature", "internal-userId"] ∧
    "X-Share-Scopes" ∉ (processHeadersTs s4Ctx).map Prod.fst ∧
    "Authorization" ∉ (processHeadersTs s4Ctx).map Prod.fst ∧
    (processHeadersJs [] s4Ctx).map Prod.fst =
      ["Content-Type", "internal-router-signature", "internal-userId",
       "X-Share-Scopes"] := by
  refine ⟨rfl, by decide, by decide, rfl⟩

/-- Claim C7 counterexample.  On a document with two query operations
(first selecting `a`, second selecting `b`) and scopes allowing only `b`,
the decision prescribed by the claim (operation field name from the FIRST
query operation) denies, but `isRequestAllowed` allows: the `visit`
callback keeps the LAST query operation's first field. -/
theorem c7_first_operation_cex :
    specIsRequestAllowed docAB undefVars scopesB = false ∧
    isRequestAllowed docAB undefVars scopesB = true ∧
    specOpFieldName docAB = some "a" ∧
    visitOperationName docAB = some "b" := by
  refine ⟨rfl, rfl, rfl, rfl⟩

/-- Claim C7 (amended).  `isRequestAllowed` returns true iff the
operation field name — taken from the LAST query operation whose first
top-level selection is a field, per `visitOperationName` — exists and
some entry of `scopes.allowedQueries` has that `queryName` and all its
required arguments match the variables by JavaScript strict equality
(denial when no such name exists). -/
theorem c7_isRequestAllowed_characterization (q : DocumentNode)
    (vars : Variables) (s : Scopes) :
    isRequestAllowed q vars s = true ↔
      ∃ n, visitOperationName q = some n ∧
        ∃ aq ∈ s.allowedQueries,
          aq.queryName = n ∧ reqArgsOk vars aq.requiredArgs = true := by
  unfold isRequestAllowed
  cases hv : visitOperationName q with
  | none => simp
  | some n =>
    simp only [List.any_eq_true, Bool.and_eq_true, beq_iff_eq, Option.some.injEq]
    constructor
    · rintro ⟨aq, haq, hname, hargs⟩
      exact ⟨n, rfl, aq, haq, hname, hargs⟩
    · rintro ⟨n2, hn2, aq, haq, hname, hargs⟩
      exact ⟨aq, haq, hn2 ▸ hname, hargs⟩

/-- Claim C7 witness: the characterization applied at the two-operation
document, concluding that the request is allowed. -/
theorem c7_isRequestAllowed_characterization_witness :
    isRequestAllowed docAB undefVars scopesB = true :=
  (c7_isRequestAllowed_characterization docAB undefVars scopesB).mpr
    ⟨"b", rfl, { queryName := "b", requiredArgs := none }, by decide, rfl, rfl⟩

/-- Claim C8 counterexample.  On a registry failure the function returns
the empty service list together with `schemaChanged = false`: the result
record carries no `sawError` field at all, and its only flag is falsy —
not the truthy error flag the claim asserts. -/
theorem c8_registry_failure_flag_not_truthy :
    (getServiceListWithTypeDefs parseT (Except.error ()) emptyCache).1.services = [] ∧
    (getServiceListWithTypeDefs parseT (Except.error ()) emptyCache).1.schemaChanged
      = false :=
  ⟨rfl, rfl⟩

/-- Claim C8 (amended).  On a registry network/decode failure,
`getServiceListWithTypeDefs` returns an empty service list with
`schemaChanged = false` and the cache untouched; no error indicator is
returned (the failure is only logged), and the exception never
propagates — the embedded function is total, mirroring the catch-all
branch. -/
theorem c8_registry_failure_behavior (parse : String → Option DocumentNode)
    (cache : Cache) :
    getServiceListWithTypeDefs parse (Except.error ()) cache =
      ({ services := [], schemaChanged := false }, cache) :=
  rfl

/-- Claim C3 counterexample.  A build against registry snapshot
`[A v1 "x"]` succeeds with SDL "SDL1"; a subsequent build against
`[A v2 "y"]` hits a composition failure, and `buildSupergraph` propagates
the failure instead of returning the previously successful SDL with
`schemaChanged = false`: no `lastValidSdl` is retained anywhere in the
source. -/
theorem c3_no_lastValidSdl_cex :
    (buildSupergraph parseT engineT regX emptyCache).1 =
      Except.ok { supergraphSdl := "SDL1", schemaChanged := true } ∧
    (buildSupergraph parseT engineT regY cacheAfterX).1 =
      Except.error "Supergraph composition failed:\n\tconflict" ∧
    (buildSupergraph parseT engineT regY cacheAfterX).1 ≠
      Except.ok { supergraphSdl := "SDL1", schemaChanged := false } := by
  refine ⟨rfl, rfl, ?_⟩
  intro hcontra
  exact Except.noConfusion hcontra

/-- Claim C3 (amended).  `buildSupergraph` retains no `lastValidSdl`: a
composition failure always propagates as an error, whatever previous
builds did; continuity is provided one level up — a poll tick whose build
fails publishes nothing and leaves the phase unchanged, so the supergraph
observable by requests stays as before the failed cycle. -/
theorem c3_composition_failure_no_publish (parse : String → Option DocumentNode)
    (engine : ComposeEngine) (registry : Except Unit (List RawSchemaDefinition))
    (s : ManagerState) (e : String)
    (h : (buildSupergraph parse engine registry s.cache).1 = Except.error e) :
    (pollTick parse engine registry s).published = s.published ∧
    (pollTick parse engine registry s).phase = s.phase := by
  unfold pollTick
  by_cases hp : s.phase = ManagerPhase.polling
  · rw [if_pos hp]
    rcases hb : buildSupergraph parse engine registry s.cache with ⟨res, c2⟩
    rw [hb] at h
    simp only at h
    subst h
    exact ⟨rfl, rfl⟩
  · rw [if_neg hp]
    exact ⟨rfl, rfl⟩

/-- Claim C3 witness: the amended theorem applied to the concrete failing
cycle (service A moved to the conflicting "y" schema after a successful
"x" build). -/
theorem c3_composition_failure_no_publish_witness :
    (pollTick parseT engineT regY pollStateAfterX).published =
      pollStateAfterX.published ∧
    (pollTick parseT engineT regY pollStateAfterX).phase =
      pollStateAfterX.phase :=
  c3_composition_failure_no_publish parseT engineT regY pollStateAfterX
    "Supergraph composition failed:\n\tconflict" rfl

/-- Claim C4 counterexample.  After a successful build (SDL "SDL1"
retained as the previous supergraph), a registry snapshot with zero
descriptors makes `buildSupergraph` substitute the default service and
return its composition with `schemaChanged = true` — not the previous
SDL with `schemaChanged = false` as the claim asserts. -/
theorem c4_empty_registry_cex :
    (buildSupergraph parseT engineT regX emptyCache).1 =
      Except.ok { supergraphSdl := "SDL1", schemaChanged := true } ∧
    (buildSupergraph parseT engineT regEmpty cacheAfterX).1 =
      Except.ok { supergraphSdl := "DEFAULT_SDL", schemaChanged := true } ∧
    (buildSupergraph parseT engineT regEmpty cacheAfterX).1 ≠
      Except.ok { supergraphSdl := "SDL1", schemaChanged := false } := by
  refine ⟨rfl, rfl, ?_⟩
  intro hcontra
  have := Except.ok.inj hcontra
  exact absurd (congrArg BuildSupergraphResult.supergraphSdl this) (by decide)

/-- Claim C4 (amended).  Whenever the registry client yields zero
services — with or without a previous supergraph — `buildSupergraph`
substitutes the constant default service, forces `schemaChanged := true`,
and returns the engine's composition of that single service; the cache
is left untouched. -/
theorem c4_empty_registry_always_default (parse : String → Option DocumentNode)
    (engine : ComposeEngine) (cache : Cache) :
    (buildSupergraph parse engine (Except.ok []) cache).1 =
      (compose engine [defaultService]).map
        (fun sdl => { supergraphSdl := sdl, schemaChanged := true }) ∧
    (buildSupergraph parse engine (Except.ok []) cache).2 = cache :=
  ⟨rfl, rfl⟩

/-- Claim C5 counterexample.  With an empty registry, every polling tick
rebuilds the default supergraph with `schemaChanged = true` and calls
`update` again: the second tick publishes an SDL textually identical to
the previously published one, so publication is NOT conditioned on the
SDL differing from the last published SDL. -/
theorem c5_republish_identical_sdl_cex :
    (pollTick parseT engineT regEmpty pollStateP).published = ["DEFAULT_SDL"] ∧
    (pollTick parseT engineT regEmpty
        (pollTick parseT engineT regEmpty pollStateP)).published =
      ["DEFAULT_SDL", "DEFAULT_SDL"] :=
  ⟨rfl, rfl⟩

/-- Claim C5 (amended).  In a polling tick the `update` callback fires
exactly when the build succeeded with `schemaChanged = true`; the
published SDL is appended unconditionally on that flag — the source makes
no textual comparison with the previously published SDL. -/
theorem c5_publish_characterization (parse : String → Option DocumentNode)
    (engine : ComposeEngine) (registry : Except Unit (List RawSchemaDefinition))
    (s : ManagerState) (h : s.phase = ManagerPhase.polling) :
    (pollTick parse engine registry s).published =
      s.published ++
        (match (buildSupergraph parse engine registry s.cache).1 with
         | Except.ok r => if r.schemaChanged then [r.supergraphSdl] else []
         | Except.error _ => []) := by
  unfold pollTick
  rw [if_pos h]
  rcases hb : buildSupergraph parse engine registry s.cache with ⟨res, c2⟩
  cases res with
  | ok r =>
    simp only
    cases hr : r.schemaChanged <;> simp
  | error e => simp

/-- Claim C5 witness: the publish characterization applied to the
empty-registry polling state. -/
theorem c5_publish_characterization_witness :
    (pollTick parseT engineT regEmpty pollStateP).published =
      pollStateP.published ++
        (match (buildSupergraph parseT engineT regEmpty pollStateP.cache).1 with
         | Except.ok r => if r.schemaChanged then [r.supergraphSdl] else []
         | Except.error _ => []) :=
  c5_publish_characterization parseT engineT regEmpty pollStateP rfl

/-- Claim C6 (confirmed).  Credential evaluation follows the strict
priority bearer, then session (cookie or header token), then share
token: the validation path taken is exactly the first present credential
kind (lower priorities are never attempted).  When a bearer is present,
the context never carries shareScopes; a `TokenUser` reply yields exactly
the bearer's userId; any other reply (error discriminator or malformed
envelope) yields the `authError` with nothing else set.  When no bearer
is present but a session token (cookie or header) is, the context never
carries shareScopes either; a verified payload with `user_id` yields
exactly that userId, and a failed verification — or a payload without
`user_id` — yields the `authError` with nothing else set, the share
token never being consulted. -/
theorem c6_contextFunction_priority (req : AuthRequest) (env : AuthEnv) :
    ((contextFunction req env).2 =
      (if req.bearer.isSome then [AuthStep.bearerValidation]
       else if req.cookieToken.isSome || req.headerToken.isSome then
         [AuthStep.jwtValidation]
       else if req.shareToken.isSome then [AuthStep.shareValidation]
       else []))
    ∧ (req.bearer.isSome = true →
        ((contextFunction req env).1.shareScopes = none
         ∧ (∀ id, env.apiTokenResp = some (ValidateApiTokenResponse.tokenUser id) →
             (contextFunction req env).1 = { userId := some id })
         ∧ (isTokenUser env.apiTokenResp = false →
             (contextFunction req env).1 =
               { authError := some AuthError.invalidApiKey })))
    ∧ (req.bearer = none →
       (req.cookieToken.isSome || req.headerToken.isSome) = true →
        ((contextFunction req env).1.shareScopes = none
         ∧ (∀ uid, env.jwtVerify (sessionToken req.cookieToken req.headerToken)
               = Except.ok (some uid) →
             (contextFunction req env).1 = { userId := some uid })
         ∧ (jwtOkUser (env.jwtVerify (sessionToken req.cookieToken req.headerToken))
               = false →
             (contextFunction req env).1 =
               { authError := some AuthError.invalidOrExpiredAuthToken }))) := by
  obtain ⟨b, c, h, sh⟩ := req
  cases b with
  | some t =>
    refine ⟨by rcases ha : env.apiTokenResp with _ | (_ | _) <;>
        simp [contextFunction, ha], ?_, by simp⟩
    intro _
    refine ⟨?_, ?_, ?_⟩
    · rcases ha : env.apiTokenResp with _ | (_ | _) <;> simp [contextFunction, ha]
    · intro id hid
      simp [contextFunction, hid]
    · intro hnot
      rcases ha : env.apiTokenResp with _ | (id | code)
      · simp [contextFunction, ha]
      · rw [ha] at hnot; simp [isTokenUser] at hnot
      · simp [contextFunction, ha]
  | none =>
    refine ⟨?_, by simp, ?_⟩
    · by_cases hch : (c.isSome || h.isSome) = true
      · rcases hv : env.jwtVerify (sessionToken c h) with u | u
        · simp [contextFunction, hch, hv]
        · cases u <;> simp [contextFunction, hch, hv]
      · cases sh with
        | some st =>
          cases hok : env.shareRespOk with
          | false => simp [contextFunction, hch, hok]
          | true =>
            rcases hs : env.shareResp with _ | (_ | _) <;>
              simp [contextFunction, hch, hok, hs]
        | none => simp [contextFunction, hch]
    · intro _ hch
      refine ⟨?_, ?_, ?_⟩
      · rcases hv : env.jwtVerify (sessionToken c h) with u | u
        · simp [contextFunction, hch, hv]
        · cases u <;> simp [contextFunction, hch, hv]
      · intro uid huid
        simp [contextFunction, hch, huid]
      · intro hnot
        rcases hv : env.jwtVerify (sessionToken c h) with u | u
        · simp [contextFunction, hch, hv]
        · cases u with
          | none => simp [contextFunction, hch, hv]
          | some uid => rw [hv] at hnot; simp [jwtOkUser] at hnot

/-- Claim C6 witness: for a request with both a bearer and a share token
whose bearer validates to TokenUser "u9", only the bearer path runs and
the context is exactly the bearer identity; for a request with a session
cookie and a share token whose JWT verification throws, the context is
exactly the authError — the share token is preempted in both cases. -/
theorem c6_contextFunction_priority_witness :
    (contextFunction reqBearerShare envTokenUser).1.shareScopes = none ∧
    (contextFunction reqBearerShare envTokenUser).1 = { userId := some "u9" } ∧
    (contextFunction reqBearerShare envTokenUser).2 = [AuthStep.bearerValidation] ∧
    (contextFunction reqSessionShare envJwtFails).1 =
      { authError := some AuthError.invalidOrExpiredAuthToken } ∧
    (contextFunction reqSessionShare envJwtFails).2 = [AuthStep.jwtValidation] := by
  have hmain := c6_contextFunction_priority reqBearerShare envTokenUser
  have hsession := c6_contextFunction_priority reqSessionShare envJwtFails
  exact ⟨(hmain.2.1 rfl).1, (hmain.2.1 rfl).2.1 "u9" rfl, hmain.1,
    (hsession.2.2 rfl rfl).2.2 rfl, hsession.1⟩

/-- Claim C9 counterexample.  A manager configured without a poll
interval stays `initialized` after a successful `initialize`, and the
cleanup closure then moves it straight to `stopped`: the transition
Initialized → Stopped occurs, which the claim's transition relation
excludes. -/
theorem c9_initialized_to_stopped_cex :
    (initializeManager parseT engineT regX none managerStart).2.phase =
      ManagerPhase.initialized ∧
    (cleanup (initializeManager parseT engineT regX none managerStart).2).phase =
      ManagerPhase.stopped :=
  ⟨rfl, rfl⟩

/-- Claim C9 (amended).  Under any event the phase either stays put,
moves Initialized → Polling (only on an `initialize` whose build
succeeded with a truthy interval), or moves to Stopped (only on
cleanup — possibly directly from Initialized when polling never
started); Stopped is terminal under every event; cleanup is idempotent;
and a tick that begins in a non-polling phase changes nothing — in
particular it publishes nothing after cancellation. -/
theorem c9_manager_state_machine (parse : String → Option DocumentNode)
    (engine : ComposeEngine) (interval : Option Nat) (s : ManagerState)
    (e : MEvent) :
    ((stepEvent parse engine interval s e).phase = s.phase
      ∨ (s.phase = ManagerPhase.initialized
          ∧ (stepEvent parse engine interval s e).phase = ManagerPhase.polling
          ∧ intervalTruthy interval = true
          ∧ ∃ r res, e = MEvent.init r
              ∧ (buildSupergraph parse engine r s.cache).1 = Except.ok res)
      ∨ ((stepEvent parse engine interval s e).phase = ManagerPhase.stopped
          ∧ e = MEvent.cancelEvent))
    ∧ (s.phase = ManagerPhase.stopped →
        (stepEvent parse engine interval s e).phase = ManagerPhase.stopped)
    ∧ cleanup (cleanup s) = cleanup s
    ∧ (∀ r, s.phase ≠ ManagerPhase.polling → pollTick parse engine r s = s) := by
  have hTick : ∀ r, s.phase ≠ ManagerPhase.polling → pollTick parse engine r s = s := by
    intro r hr
    unfold pollTick
    rw [if_neg hr]
  refine ⟨?_, ?_, rfl, hTick⟩
  · cases e with
    | init r =>
      rcases hb : buildSupergraph parse engine r s.cache with ⟨res, c2⟩
      cases res with
      | error msg =>
        left
        simp [stepEvent, initializeManager, hb]
      | ok v =>
        cases hit : intervalTruthy interval with
        | false =>
          left
          simp [stepEvent, initializeManager, hb, hit]
        | true =>
          by_cases hp : s.phase = ManagerPhase.initialized
          · right; left
            refine ⟨hp, ?_, rfl, r, v, rfl, by rw [hb]⟩
            simp [stepEvent, initializeManager, hb, hit, beginPolling, hp]
          · left
            simp [stepEvent, initializeManager, hb, hit, beginPolling, hp]
    | tick r =>
      left
      show (pollTick parse engine r s).phase = s.phase
      by_cases hp : s.phase = ManagerPhase.polling
      · unfold pollTick
        rw [if_pos hp]
        rcases buildSupergraph parse engine r s.cache with ⟨res, c2⟩
        cases res <;> rfl
      · rw [hTick r hp]
    | cancelEvent => right; right; exact ⟨rfl, rfl⟩
  · intro hstop
    cases e with
    | init r =>
      rcases hb : buildSupergraph parse engine r s.cache with ⟨res, c2⟩
      cases res with
      | error msg => simp [stepEvent, initializeManager, hb, hstop]
      | ok v =>
        cases hit : intervalTruthy interval <;>
          simp [stepEvent, initializeManager, hb, hit, beginPolling, hstop]
    | tick r =>
      have hne : s.phase ≠ ManagerPhase.polling := by
        rw [hstop]; intro hcontra; exact ManagerPhase.noConfusion hcontra
      show (pollTick parse engine r s).phase = ManagerPhase.stopped
      rw [hTick r hne, hstop]
    | cancelEvent => rfl

/-- Claim C9 witness: a cancelled manager ignores a subsequent tick. -/
theorem c9_manager_state_machine_witness :
    pollTick parseT engineT regX (cleanup managerStart) = cleanup managerStart :=
  (c9_manager_state_machine parseT engineT (some 30000) (cleanup managerStart)
      MEvent.cancelEvent).2.2.2 regX (by decide)

/-- Claim C10 counterexample.  Cache holds A → "x" and B → "x"; the
registry response removes A and keeps B byte-identical — but B carries no
url, so it is filtered out of the service list.  `getServiceListWithTypeDefs`
correctly reports `schemaChanged = false`, yet the empty-services fallback
in `buildSupergraph` forces a change and the polling tick PUBLISHES the
default SDL: removal with unchanged, non-empty remaining entries can
still trigger a publish. -/
theorem c10_removal_republishes_cex :
    (getServiceListWithTypeDefs parseT (Except.ok [rawBnoUrl]) cacheAB).1.schemaChanged
      = false ∧
    (pollTick parseT engineT (Except.ok [rawBnoUrl]) pollStateAB).published =
      ["DEFAULT_SDL"] :=
  ⟨rfl, rfl⟩

/-- Claim C10 (amended).  `getServiceListWithTypeDefs` sets
`schemaChanged` true iff some response entry's `type_defs` differs from
the cached value under its name (new names count as differing); cache
entries absent from the response are retained untouched and never
contribute to the flag; and when every response entry matches the cache
AND at least one entry yields a valid service (a url and parseable
type_defs), a polling tick publishes nothing — without a valid remaining
entry the empty-services fallback may still publish the default SDL. -/
theorem c10_change_detection (parse : String → Option DocumentNode)
    (engine : ComposeEngine) (reg : List RawSchemaDefinition)
    (s : ManagerState) :
    ((getServiceListWithTypeDefs parse (Except.ok reg) s.cache).1.schemaChanged = true
       ↔ ∃ r ∈ reg, s.cache r.name ≠ some r.type_defs)
    ∧ (∀ n, (∀ r ∈ reg, r.name ≠ n) →
        (getServiceListWithTypeDefs parse (Except.ok reg) s.cache).2 n = s.cache n)
    ∧ ((∀ r ∈ reg, s.cache r.name = some r.type_defs) →
       (∃ r ∈ reg, (urlRewrite r.url).isSome ∧ (parse r.type_defs).isSome) →
       s.phase = ManagerPhase.polling →
       (pollTick parse engine (Except.ok reg) s).published = s.published) := by
  refine ⟨?_, ?_, ?_⟩
  · simpa [getServiceListWithTypeDefs] using
      mapRegistry_changed_iff parse reg s.cache
  · intro n hn
    simpa [getServiceListWithTypeDefs] using
      mapRegistry_cache_other parse reg s.cache n hn
  · intro hmatch hvalid hp
    have hch : (getServiceListWithTypeDefs parse (Except.ok reg) s.cache).1.schemaChanged
        = false := by
      have := mapRegistry_changed_iff parse reg s.cache
      simp only [getServiceListWithTypeDefs]
      rcases hflag : (mapRegistry parse s.cache reg).2.1 with _ | _
      · rfl
      · exfalso
        obtain ⟨r, hr, hne⟩ := this.mp hflag
        exact hne (hmatch r hr)
    have hsvc : (getServiceListWithTypeDefs parse (Except.ok reg) s.cache).1.services
        ≠ [] := by
      obtain ⟨r, hr, hu, hparse⟩ := hvalid
      obtain ⟨u, hu2⟩ := Option.isSome_iff_exists.mp hu
      obtain ⟨td, htd⟩ := Option.isSome_iff_exists.mp hparse
      have hmem : ({ name := r.name, url := u, typeDefs := td } : ServiceDefinition)
          ∈ (getServiceListWithTypeDefs parse (Except.ok reg) s.cache).1.services := by
        simp only [getServiceListWithTypeDefs, mapRegistry_mapped]
        refine List.mem_filterMap.mpr ⟨mkMapped parse r, List.mem_map_of_mem _ hr, ?_⟩
        simp [toService, mkMapped, hu2, htd]
      exact List.ne_nil_of_mem hmem
    have hbuild := buildSupergraph_no_substitution parse engine (Except.ok reg)
      s.cache hsvc hch
    unfold pollTick
    rw [if_pos hp]
    rcases hb : buildSupergraph parse engine (Except.ok reg) s.cache with ⟨res, c2⟩
    rw [hb] at hbuild
    simp only at hbuild
    rcases hcomp : compose engine
        (getServiceListWithTypeDefs parse (Except.ok reg) s.cache).1.services
      with msg | sdl
    · rw [hcomp] at hbuild
      simp [Except.map] at hbuild
      subst hbuild
      rfl
    · rw [hcomp] at hbuild
      simp [Except.map] at hbuild
      subst hbuild
      rfl

/-- Claim C10 witness: a snapshot repeating the cached service A
unchanged (with a valid url and parseable type_defs) leaves the publish
history of a polling manager untouched. -/
theorem c10_change_detection_witness :
    (pollTick parseT engineT (Except.ok [rawAx]) pollStateA).published =
      pollStateA.published :=
  (c10_change_detection parseT engineT [rawAx] pollStateA).2.2
    (by decide) (by decide) rfl

end Router
